import Mathlib

/-!
Verification of the LYRA command-understanding core (decision engine,
context store, knowledge cache) against its natural-language specification.

The Python sources under src/core (decision_engine.py, context_manager.py,
ai_learning.py) are shallowly embedded below.  Python dicts are modelled as
insertion-ordered association lists with Python assignment semantics
(update-in-place if the key exists, append otherwise), Python strings as
Lean strings over their character lists (ASCII behaviour of str.lower and
of the regex classes, which is the relevant fragment for every command and
key manipulated by the code), timestamps as opaque strings supplied by the
caller (datetime.now is an external clock), and the network collaborators
(Wikipedia summary endpoint, OpenWeatherMap) as oracle functions passed in.
-/

/-- Characters used both by the normalizer and by the JSON document model. -/
def quoteChar : Char := Char.ofNat 34

def backslashChar : Char := Char.ofNat 92

def spaceChar : Char := Char.ofNat 32

def underscoreChar : Char := Char.ofNat 95

def hyphenChar : Char := Char.ofNat 45

def periodChar : Char := Char.ofNat 46

def commaChar : Char := Char.ofNat 44

def colonChar : Char := Char.ofNat 58

def lbraceChar : Char := Char.ofNat 123

def rbraceChar : Char := Char.ofNat 125

def minusChar : Char := Char.ofNat 45

/-- Single-quote character, needed to build Python message strings and the
Python textual rendering of dicts (str(dict) uses single quotes). -/
def sqChar : Char := Char.ofNat 39

def sqStr : String := String.singleton sqChar

/-- Python whitespace for str.split, str.strip and the regex class \s
(space, tab, newline, carriage return, vertical tab, form feed). -/
def isSpaceChar (c : Char) : Bool :=
  c == spaceChar || c == Char.ofNat 9 || c == Char.ofNat 10 ||
  c == Char.ofNat 13 || c == Char.ofNat 11 || c == Char.ofNat 12

/-- The regex class \w (word characters), ASCII fragment: letters, digits
and the underscore. -/
def isWordChar (c : Char) : Bool :=
  c.isAlphanum || c == underscoreChar

/-- Lower-casing a string, modelling Python str.lower on the ASCII
fragment actually used by the code. -/
def pyLower (s : String) : String := String.mk (s.toList.map Char.toLower)

/-- Is the first list a prefix of the second (character-wise)? -/
def isPrefixOfL : List Char → List Char → Bool
  | [], _ => true
  | _ :: _, [] => false
  | a :: as, b :: bs => a == b && isPrefixOfL as bs

/-- Substring containment on character lists: does needle occur
contiguously inside hay?  Empty needle matches, as in Python. -/
def containsL (needle : List Char) : List Char → Bool
  | [] => needle.isEmpty
  | c :: rest => isPrefixOfL needle (c :: rest) || containsL needle rest

/-- Python expression needle in hay for strings (substring containment). -/
def pyIn (needle hay : String) : Bool := containsL needle.toList hay.toList

/-- Python str.strip(): drop leading and trailing whitespace. -/
def pyStrip (s : String) : String :=
  String.mk (((s.toList.dropWhile isSpaceChar).reverse.dropWhile isSpaceChar).reverse)

/-- One pass of re.sub(r of whitespace runs, single space): the boolean
records whether the previous kept character closed a whitespace run. -/
def collapseWsAux : Bool → List Char → List Char
  | _, [] => []
  | prevSp, c :: rest =>
    if isSpaceChar c then
      if prevSp then collapseWsAux true rest
      else spaceChar :: collapseWsAux true rest
    else c :: collapseWsAux false rest

/-- Python str.split() (no separator): split on whitespace runs, dropping
empty pieces. -/
def splitWsAux (cur : List Char) : List Char → List String
  | [] => if cur.isEmpty then [] else [String.mk cur.reverse]
  | c :: rest =>
    if isSpaceChar c then
      if cur.isEmpty then splitWsAux [] rest
      else String.mk cur.reverse :: splitWsAux [] rest
    else splitWsAux (c :: cur) rest

def pySplitWs (s : String) : List String := splitWsAux [] s.toList

/-- Python str.replace(needle, repl): replace every non-overlapping
occurrence, scanning left to right.  The code only ever calls this with a
non-empty needle; for an empty needle this definition skips the position
(Python would instead interleave the replacement). -/
def replaceAllL (needle repl : List Char) : List Char → List Char
  | [] => []
  | c :: rest =>
    if !needle.isEmpty && isPrefixOfL needle (c :: rest) then
      repl ++ replaceAllL needle repl (rest.drop (needle.length - 1))
    else
      c :: replaceAllL needle repl rest
termination_by l => l.length
decreasing_by
  · simp only [List.length_cons]
    have := List.length_drop (needle.length - 1) rest
    omega
  · simp only [List.length_cons]; omega

def pyReplaceAll (s needle repl : String) : String :=
  String.mk (replaceAllL needle.toList repl.toList s.toList)

/-- Python slicing s[:n] for strings (by code points). -/
def pyTakeStr (n : Nat) (s : String) : String := String.mk (s.toList.take n)

/-- Decimal digit run to the integer it denotes (Python int()). -/
def digitsToNat (ds : List Char) : Nat :=
  ds.foldl (fun acc c => acc * 10 + (c.toNat - 48)) 0

/-- Decimal rendering of a natural number, digit characters most
significant first (the JSON rendering of the stored access counts). -/
def natToDigits (n : Nat) : List Char :=
  if h : n < 10 then [Char.ofNat (48 + n)]
  else natToDigits (n / 10) ++ [Char.ofNat (48 + n % 10)]
termination_by n
decreasing_by
  exact Nat.div_lt_self (by omega) (by omega)

/-- A JSON-representable scalar stored in a knowledge-base record field.
The repository stores strings, integers (the access counter) and booleans
(device connection flags); floats never reach the verified claims and are
kept opaque behind the string constructor. -/
inductive FVal
  | str (s : String)
  | num (n : Nat)
  | boolV (b : Bool)
deriving DecidableEq

/-- A Python dict with string keys, modelled as an insertion-ordered
association list (CPython dicts preserve insertion order). -/
abbrev Entry := List (String × FVal)

/-- The in-memory knowledge base: normalized query string to record. -/
abbrev KB := List (String × Entry)

/-- Python dict lookup d.get(k): first binding of the key, if any. -/
def dictGet? (k : String) : List (String × α) → Option α
  | [] => none
  | (k1, v) :: rest => if k1 = k then some v else dictGet? k rest

/-- Python dict assignment d[k] = v: update in place if the key exists
(keeping its position), append otherwise. -/
def dictInsert (k : String) (v : α) : List (String × α) → List (String × α)
  | [] => [(k, v)]
  | (k1, v1) :: rest =>
    if k1 = k then (k, v) :: rest else (k1, v1) :: dictInsert k v rest

/-- Rendering of a field value inside a Python f-string. -/
def fvalToText : FVal → String
  | .str s => s
  | .num n => String.mk (natToDigits n)
  | .boolV b => if b then "True" else "False"

/-- Rendering of a field value inside str(dict): strings are wrapped in
single quotes, numbers and booleans use their Python repr. -/
def pyReprFVal : FVal → String
  | .str s => sqStr ++ s ++ sqStr
  | .num n => String.mk (natToDigits n)
  | .boolV b => if b then "True" else "False"

/-- Python str(dict): single-quoted keys, comma-and-space separated
bindings, surrounded by braces. -/
def pyStrEntry (e : Entry) : String :=
  String.singleton lbraceChar ++
    String.intercalate (", ") (e.map (fun kv => sqStr ++ kv.1 ++ sqStr ++ ": " ++ pyReprFVal kv.2)) ++
    String.singleton rbraceChar

/-- Getting a string-valued field with a default, for the f-string uses
where Python renders whatever object sits there. -/
def getTextD (k d : String) (e : Entry) : String :=
  match dictGet? k e with
  | some v => fvalToText v
  | none => d

/-! ## Context Manager (src/core/context_manager.py)

Timestamps are opaque strings provided by the caller (datetime.now is an
external clock).  Logging calls have no observable effect and are not
modelled.  Persistence of the context document is not needed by any claim;
the constructor is modelled in its fresh-start configuration (no
config/context.json present). -/

/-- One conversation-history element: the entry payload (an arbitrary
dict, kept opaque) plus the timestamp add_conversation_entry stamps on
it. -/
structure ConvEntry where
  payload : String
  timestamp : String
deriving DecidableEq

/-- The state owned by ContextManager. -/
structure CtxState where
  currentMode : String
  systemState : List (String × Entry)
  conversationHistory : List ConvEntry
  userPreferences : List (String × FVal)
  deviceStates : List (String × Entry)
  sessionStartTime : String
  lastActivity : String
deriving DecidableEq

/-- ContextManager.__init__ with no persisted context file. -/
def CtxState.init (now : String) : CtxState where
  currentMode := "home"
  systemState := []
  conversationHistory := []
  userPreferences := []
  deviceStates :=
    [("trinetra", [("connected", .boolV false), ("status", .str ("offline"))]),
     ("krait3", [("connected", .boolV false), ("status", .str ("offline"))])]
  sessionStartTime := now
  lastActivity := now

/-- The fixed mode enumeration of ContextManager.set_mode. -/
def validModes : List String := ["home", "defense", "night", "manual"]

/-- ContextManager.set_mode: accept only enumeration members; on success
update the mode and stamp last_activity; otherwise log a warning (not
modelled) and leave the state untouched. -/
def CtxState.setMode (st : CtxState) (now mode : String) : CtxState :=
  if mode ∈ validModes then
    { st with currentMode := mode, lastActivity := now }
  else st

/-- ContextManager.get_mode. -/
def CtxState.getMode (st : CtxState) : String := st.currentMode

/-- ContextManager.add_conversation_entry: stamp the entry, append it,
keep only the last 100 entries, touch last_activity. -/
def CtxState.addConversationEntry (st : CtxState) (now payload : String) : CtxState :=
  let h := st.conversationHistory ++ [⟨payload, now⟩]
  let h2 := if h.length > 100 then h.drop (h.length - 100) else h
  { st with conversationHistory := h2, lastActivity := now }

/-- A sequence of add_conversation_entry calls; each element is the
payload paired with the clock value at that call. -/
def CtxState.addMany (st : CtxState) (es : List (String × String)) : CtxState :=
  es.foldl (fun s e => s.addConversationEntry e.2 e.1) st

def mkConv (e : String × String) : ConvEntry := ⟨e.1, e.2⟩

/-! ## AI Learning System (src/core/ai_learning.py)

The knowledge base is the in-memory dict; `persistedDoc` mirrors the
data/knowledge_base.json document, rewritten in full by
_save_knowledge_base after every mutation (write-through).  The Wikipedia
and OpenWeatherMap HTTP calls are oracles; a timeout or transport error
surfaces as the exception outcome, a non-200 response as the
not-ok outcome. -/

/-- API configuration dict of AILearningSystem.__init__ (the fields the
verified code paths read). -/
structure ApiCfg where
  wikipediaEnabled : Bool := true
  openweatherEnabled : Bool := false
  openweatherKey : Option String := none
deriving DecidableEq

/-- State owned by AILearningSystem. -/
structure AIState where
  knowledgeBase : KB
  persistedDoc : Option KB
  cfg : ApiCfg
deriving DecidableEq

/-- AILearningSystem.__init__ over an empty data directory. -/
def AIState.init : AIState where
  knowledgeBase := []
  persistedDoc := none
  cfg := {}

/-- Network outcome of the requests.get call inside _search_wikipedia:
a 200 response carrying the summary JSON fields the code reads, a non-200
response, or a raised exception (timeout or transport error). -/
inductive WikiNet
  | ok (title extract url : String)
  | notOk
  | exn (msg : String)

/-- Network outcome of the requests.get call inside get_weather_info. -/
inductive WeatherNet
  | ok (name : String) (temp : FVal) (description : String) (humidity : FVal)
  | notOk
  | exn (msg : String)

/-- Result dict of _search_wikipedia. -/
inductive WikiResult
  | success (data : Entry)
  | notFound
  | disabled
  | error (msg : String)
deriving DecidableEq

def WikiResult.isSuccess : WikiResult → Bool
  | .success _ => true
  | _ => false

/-- AILearningSystem._search_wikipedia: disabled check, then the HTTP call
on the query with spaces replaced by underscores; a 200 answer is shaped
into the stored record (title, extract, truncated summary, url,
timestamp), a non-200 answer becomes not_found, an exception becomes the
error status. -/
def searchWikipedia (now : String) (net : String → WikiNet) (cfg : ApiCfg)
    (q : String) : WikiResult :=
  if !cfg.wikipediaEnabled then .disabled
  else
    match net (pyReplaceAll q (" ") ("_")) with
    | .ok title extract url =>
      .success
        [("title", .str title),
         ("extract", .str extract),
         ("summary", .str (if extract.length > 300 then pyTakeStr 300 extract ++ "..." else extract)),
         ("url", .str url),
         ("timestamp", .str now)]
    | .notOk => .notFound
    | .exn m => .error m

/-- The record written by AILearningSystem._store_knowledge: the learned
payload spread first, then source, learned_at and access_count set (Python
dict-literal semantics: a payload field of the same name is overridden). -/
def mkStoreRecord (now : String) (data : Entry) (src : String) : Entry :=
  dictInsert ("access_count") (.num 1)
    (dictInsert ("learned_at") (.str now)
      (dictInsert ("source") (.str src) data))

/-- AILearningSystem._store_knowledge: key the record by the lower-cased
query and persist the whole knowledge base (write-through). -/
def storeKnowledge (now q : String) (data : Entry) (src : String) (st : AIState) : AIState :=
  let kb := dictInsert (pyLower q) (mkStoreRecord now data src) st.knowledgeBase
  { st with knowledgeBase := kb, persistedDoc := some kb }

/-- AILearningSystem._search_knowledge_base: exact key match on the
lower-cased query first, then the first record (in insertion order) whose
key contains the query or is contained in it. -/
def searchKnowledgeBase (q : String) (kb : KB) : Option Entry :=
  let ql := pyLower q
  match dictGet? ql kb with
  | some v => some v
  | none =>
    (kb.find? (fun kv => pyIn ql kv.1 || pyIn kv.1 ql)).map (fun kv => kv.2)

/-- Result dict of search_and_learn. -/
structure SLResult where
  status : String
  source : Option String := none
  data : Option Entry := none
  message : String
deriving DecidableEq

/-- Python slicing record.get(summary-key, empty)[:200] raises TypeError
when the stored summary is not a string; that exception is swallowed by
the try of search_and_learn, which then answers with the error status.
none models the raised exception. -/
def summarySlice200 (e : Entry) : Option String :=
  match dictGet? ("summary") e with
  | none => some ""
  | some (.str s) => some (pyTakeStr 200 s)
  | some _ => none

/-- Whether a record carries a sliceable summary (absent or a string). -/
def summaryIsStr (e : Entry) : Bool :=
  match dictGet? ("summary") e with
  | none => true
  | some (.str _) => true
  | some _ => false

/-- The not_found answer of search_and_learn. -/
def slNotFound (q : String) : SLResult where
  status := "not_found"
  message := "I couldn" ++ sqStr ++ "t find information about " ++ sqStr ++ q ++ sqStr ++
    ". Let me remember this query for future learning."

/-- Miss path of search_and_learn: one Wikipedia attempt; on success store
and answer with the wikipedia source, otherwise answer not_found without
touching the cache.  The boolean records that _search_wikipedia ran. -/
def searchAndLearnMiss (now : String) (net : String → WikiNet) (q : String)
    (st : AIState) : SLResult × AIState × Bool :=
  match searchWikipedia now net st.cfg q with
  | .success d =>
    ({ status := "success", source := some "wikipedia", data := some d,
       message := "I learned about " ++ q ++ " from Wikipedia. " ++
         pyTakeStr 200 (getTextD ("extract") ("") d) ++ "..." },
     storeKnowledge now q d ("wikipedia") st, true)
  | _ => (slNotFound q, st, true)

/-- AILearningSystem.search_and_learn.  A cached record is a hit only when
the dict is truthy (non-empty); the hit answer never touches the state.
The third component records whether _search_wikipedia was invoked. -/
def searchAndLearn (now : String) (net : String → WikiNet) (q : String)
    (st : AIState) : SLResult × AIState × Bool :=
  match searchKnowledgeBase q st.knowledgeBase with
  | some e =>
    if e.isEmpty then searchAndLearnMiss now net q st
    else
      match summarySlice200 e with
      | some sum =>
        ({ status := "success", source := some "knowledge_base", data := some e,
           message := "I already know about " ++ q ++ ". " ++ sum ++ "..." },
         st, false)
      | none =>
        ({ status := "error",
           message := "I encountered an error while searching for " ++ sqStr ++ q ++ sqStr ++
             ": TypeError" }, st, false)
  | none => searchAndLearnMiss now net q st

/-- AILearningSystem.learn_from_conversation: store the turn under a
hash-bucketed key (Python string hashing is process-salted, so the hash is
an oracle) and persist. -/
def learnFromConversation (now : String) (pyHash : String → Nat)
    (userInput sysResponse : String) (st : AIState) : AIState :=
  let key := "conversation_" ++ String.mk (natToDigits (pyHash userInput % 10000))
  let e : Entry :=
    [("user_input", .str userInput), ("system_response", .str sysResponse),
     ("timestamp", .str now), ("type", .str ("conversation"))]
  let kb := dictInsert key e st.knowledgeBase
  { st with knowledgeBase := kb, persistedDoc := some kb }

/-- Result dict of get_weather_info. -/
structure WResult where
  status : String
  data : Option Entry := none
  message : String
deriving DecidableEq

/-- AILearningSystem.get_weather_info: disabled until a key is configured;
a 200 answer is shaped, stored under weather_ and the city, and persisted;
non-200 answers degrade to not_found and exceptions to the error status. -/
def getWeatherInfo (now : String) (net : String → WeatherNet) (city : String)
    (st : AIState) : WResult × AIState :=
  if !st.cfg.openweatherEnabled || st.cfg.openweatherKey.isNone then
    ({ status := "disabled",
       message := "Weather API not configured. Please add OpenWeatherMap API key." }, st)
  else
    match net city with
    | .ok name temp desc hum =>
      let info : Entry :=
        [("city", .str name), ("temperature", temp), ("description", .str desc),
         ("humidity", hum), ("timestamp", .str now)]
      ({ status := "success", data := some info,
         message := "Current weather in " ++ city ++ ": " ++ fvalToText temp ++ "°C, " ++ desc },
       storeKnowledge now ("weather_" ++ pyLower city) info ("openweather") st)
    | .notOk => ({ status := "not_found", message := "Weather data not found for " ++ city }, st)
    | .exn m => ({ status := "error", message := "Weather lookup failed: " ++ m }, st)

/-! ## The persisted knowledge document (json.dump / json.load)

_save_knowledge_base serializes the whole knowledge dict with json.dump
and _load_knowledge_base reads it back with json.load.  The document
grammar for the values the system stores (string-keyed objects of objects
of strings, integers and booleans) is embedded below: the encoder renders
the document text (escaping quotes and backslashes; the pretty-printing
indentation of json.dump is whitespace the parser would skip and is left
out) and the parser is a recursive-descent reader of exactly that
grammar. -/

/-- JSON string-body encoding of one character. -/
def escChar (c : Char) : List Char :=
  if c = quoteChar then [backslashChar, quoteChar]
  else if c = backslashChar then [backslashChar, backslashChar]
  else [c]

/-- JSON rendering of a string, quotes included. -/
def encStrL (s : String) : List Char :=
  quoteChar :: (s.toList.flatMap escChar) ++ [quoteChar]

/-- JSON rendering of a scalar field value. -/
def encFVal : FVal → List Char
  | .str s => encStrL s
  | .num n => natToDigits n
  | .boolV b => if b then (String.toList ("true")) else (String.toList ("false"))

/-- JSON rendering of the comma-separated field list of a record. -/
def encFields : Entry → List Char
  | [] => []
  | [(k, v)] => encStrL k ++ colonChar :: encFVal v
  | (k, v) :: rest => encStrL k ++ colonChar :: encFVal v ++ commaChar :: encFields rest

/-- JSON rendering of one knowledge record. -/
def encEntry (e : Entry) : List Char :=
  lbraceChar :: encFields e ++ [rbraceChar]

/-- JSON rendering of the comma-separated key/record list. -/
def encKBFields : KB → List Char
  | [] => []
  | [(k, v)] => encStrL k ++ colonChar :: encEntry v
  | (k, v) :: rest => encStrL k ++ colonChar :: encEntry v ++ commaChar :: encKBFields rest

/-- JSON rendering of the whole knowledge document. -/
def encKB (kb : KB) : List Char :=
  lbraceChar :: encKBFields kb ++ [rbraceChar]

/-- AILearningSystem._save_knowledge_base: the document text written to
data/knowledge_base.json. -/
def saveKnowledgeBase (kb : KB) : String := String.mk (encKB kb)

/-- Read a JSON string body up to the closing quote, undoing the two
escapes the encoder emits. -/
def parseStrBody : List Char → Option (List Char × List Char)
  | [] => none
  | c :: rest =>
    if c = quoteChar then some ([], rest)
    else if c = backslashChar then
      match rest with
      | [] => none
      | e :: rest2 =>
        if e = quoteChar || e = backslashChar then
          match parseStrBody rest2 with
          | some (b, r) => some (e :: b, r)
          | none => none
        else none
    else
      match parseStrBody rest with
      | some (b, r) => some (c :: b, r)
      | none => none

/-- Read a JSON string, quotes included. -/
def parseStrL : List Char → Option (String × List Char)
  | [] => none
  | c :: rest =>
    if c = quoteChar then
      match parseStrBody rest with
      | some (b, r) => some (String.mk b, r)
      | none => none
    else none

/-- Read a JSON scalar: a string, a digit run, or a boolean literal. -/
def parseFValL (l : List Char) : Option (FVal × List Char) :=
  match l with
  | [] => none
  | c :: _ =>
    if c = quoteChar then
      match parseStrL l with
      | some (s, r) => some (.str s, r)
      | none => none
    else if c.isDigit then
      some (.num (digitsToNat (l.takeWhile Char.isDigit)), l.dropWhile Char.isDigit)
    else if isPrefixOfL (String.toList ("true")) l then
      some (.boolV true, l.drop 4)
    else if isPrefixOfL (String.toList ("false")) l then
      some (.boolV false, l.drop 5)
    else none

/-- Read the non-empty field list of a record, consuming the closing
brace.  The fuel bounds the number of fields; callers pass the remaining
input length, which dominates it. -/
def parseFields : Nat → List Char → Option (Entry × List Char)
  | 0, _ => none
  | fuel + 1, l =>
    match parseStrL l with
    | none => none
    | some (k, r1) =>
      match r1 with
      | [] => none
      | c :: r2 =>
        if c = colonChar then
          match parseFValL r2 with
          | none => none
          | some (v, r3) =>
            match r3 with
            | [] => none
            | c2 :: r4 =>
              if c2 = commaChar then
                match parseFields fuel r4 with
                | some (e, r) => some ((k, v) :: e, r)
                | none => none
              else if c2 = rbraceChar then some ([(k, v)], r4)
              else none
        else none

/-- Read one record object. -/
def parseEntryL (l : List Char) : Option (Entry × List Char) :=
  match l with
  | [] => none
  | c :: rest =>
    if c = lbraceChar then
      match rest with
      | [] => none
      | c2 :: r2 =>
        if c2 = rbraceChar then some ([], r2)
        else parseFields rest.length rest
    else none

/-- Read the non-empty key/record list of the document, consuming the
closing brace. -/
def parseKBFields : Nat → List Char → Option (KB × List Char)
  | 0, _ => none
  | fuel + 1, l =>
    match parseStrL l with
    | none => none
    | some (k, r1) =>
      match r1 with
      | [] => none
      | c :: r2 =>
        if c = colonChar then
          match parseEntryL r2 with
          | none => none
          | some (v, r3) =>
            match r3 with
            | [] => none
            | c2 :: r4 =>
              if c2 = commaChar then
                match parseKBFields fuel r4 with
                | some (e, r) => some ((k, v) :: e, r)
                | none => none
              else if c2 = rbraceChar then some ([(k, v)], r4)
              else none
        else none

/-- Read the whole document object. -/
def parseKBL (l : List Char) : Option (KB × List Char) :=
  match l with
  | [] => none
  | c :: rest =>
    if c = lbraceChar then
      match rest with
      | [] => none
      | c2 :: r2 =>
        if c2 = rbraceChar then some ([], r2)
        else parseKBFields rest.length rest
    else none

/-- AILearningSystem._load_knowledge_base: parse the document text; any
parse failure (json.load raising) is swallowed and falls back to the empty
knowledge base. -/
def loadKnowledgeBase (s : String) : KB :=
  match parseKBL s.toList with
  | some (kb, []) => kb
  | _ => []

/-- get_knowledge_stats counter bump: sources[s] = sources.get(s, 0) + 1. -/
def bumpCount (k : String) (m : List (String × Nat)) : List (String × Nat) :=
  dictInsert k ((dictGet? k m).getD 0 + 1) m

/-- The key a record contributes to a stats counter: Python would use the
field object itself as the dict key; the stored fields are strings, and
the non-string renderings are noted for totality. -/
def statKey (k d : String) (e : Entry) : String :=
  match dictGet? k e with
  | some (.str s) => s
  | some v => fvalToText v
  | none => d

/-- Result of get_knowledge_stats. -/
structure KStats where
  totalEntries : Nat
  sources : List (String × Nat)
  types : List (String × Nat)
  fileSize : Nat
deriving DecidableEq

/-- AILearningSystem.get_knowledge_stats: entry count, per-source and
per-type counters in first-seen order, and the on-disk size of the
persisted document (0 when nothing has been written yet). -/
def getKnowledgeStats (st : AIState) : KStats where
  totalEntries := st.knowledgeBase.length
  sources := st.knowledgeBase.foldl (fun m kv => bumpCount (statKey ("source") ("unknown") kv.2) m) []
  types := st.knowledgeBase.foldl (fun m kv => bumpCount (statKey ("type") ("knowledge") kv.2) m) []
  fileSize :=
    match st.persistedDoc with
    | some doc => (saveKnowledgeBase doc).length
    | none => 0

/-- One result row of search_local_knowledge. -/
structure SearchHit where
  key : String
  relevance : String
  data : Entry
deriving DecidableEq

/-- Row collection pass of search_local_knowledge, in knowledge-base
insertion order: high when the lower-cased query occurs in the key,
otherwise medium when it occurs in the lower-cased str() rendering of the
record (every stored value is a dict, so the isinstance guard of the
source holds). -/
def collectHits (ql : String) (kb : KB) : List SearchHit :=
  kb.filterMap (fun kv =>
    if pyIn ql kv.1 then some ⟨kv.1, "high", kv.2⟩
    else if pyIn ql (pyLower (pyStrEntry kv.2)) then some ⟨kv.1, "medium", kv.2⟩
    else none)

def SearchHit.isHigh (r : SearchHit) : Bool := r.relevance == "high"

/-- The sort of search_local_knowledge: list.sort with key 0 for high and
1 for medium is a stable two-way partition, so the high rows keep their
order ahead of the medium rows. -/
def sortByRelevance (rs : List SearchHit) : List SearchHit :=
  rs.filter SearchHit.isHigh ++ rs.filter (fun r => !r.isHigh)

/-- AILearningSystem.search_local_knowledge: collect, sort by relevance
tier, return the top five. -/
def searchLocalKnowledge (q : String) (kb : KB) : List SearchHit :=
  (sortByRelevance (collectHits (pyLower q) kb)).take 5

/-! ## Decision Engine (src/core/decision_engine.py) -/

/-- A command pattern: either a plain alternation of literal keywords
(re.search succeeds exactly when one of them occurs as a substring) or the
one two-group pattern of system_control, first-alternation then at least
one character then second-alternation. -/
inductive Pat
  | alts (ws : List String)
  | seq2 (as bs : List String)

/-- Matching of the two-group pattern: some first-group word occurs at a
position, and some second-group word occurs at least one character after
it ends (the dot-plus in between). -/
def seqMatchL (as bs : List String) : List Char → Bool
  | [] => false
  | c :: rest =>
    (as.any fun a =>
      isPrefixOfL a.toList (c :: rest) &&
        bs.any fun b => containsL b.toList ((c :: rest).drop (a.toList.length + 1))) ||
    seqMatchL as bs rest

/-- re.search of one pattern against the normalized (already lower-cased)
command; the IGNORECASE flag is inert because both the command and the
pattern literals are lower-case. -/
def patMatch (p : Pat) (s : List Char) : Bool :=
  match p with
  | .alts ws => ws.any fun w => containsL w.toList s
  | .seq2 as bs => seqMatchL as bs s

/-- DecisionEngine._load_command_patterns: the five domains with their
ordered pattern lists, in declaration order. -/
def commandPatterns : List (String × List Pat) :=
  [("system_control",
     [.alts ["status", "health", "system", "check"],
      .alts ["temperature", "cpu", "memory", "disk"],
      .seq2 ["mode", "switch", "change"] ["defense", "home", "night", "manual"]]),
   ("trinetra_control",
     [.alts ["trinetra", "ground", "bot", "ugv"],
      .alts ["move", "forward", "backward", "left", "right", "stop"],
      .alts ["camera", "stream", "snapshot", "record"],
      .alts ["patrol", "scout", "search"],
      .alts ["sensor", "gas", "fire", "motion"]]),
   ("krait3_control",
     [.alts ["krait", "uav", "drone", "air", "fly"],
      .alts ["launch", "takeoff", "land", "hover", "return"],
      .alts ["altitude", "height", "up", "down"],
      .alts ["waypoint", "navigate", "goto", "coordinates"],
      .alts ["mission", "reconnaissance", "surveillance"]]),
   ("voice_control",
     [.alts ["listen", "start", "voice", "speech"],
      .alts ["stop", "quiet", "silence"],
      .alts ["repeat", "say", "speak"],
      .alts ["volume", "loud", "quiet"]]),
   ("general",
     [.alts ["hello", "hi", "hey", "greetings"],
      .alts ["help", "assist", "support"],
      .alts ["thank", "thanks"],
      .alts ["goodbye", "bye", "exit", "quit"]])]

/-- Characters kept by the punctuation strip of _normalize_command
(word characters, whitespace, hyphen, period). -/
def keepChar (c : Char) : Bool :=
  isWordChar c || isSpaceChar c || c == hyphenChar || c == periodChar

/-- DecisionEngine._normalize_command: lower-case and strip, collapse
whitespace runs to single spaces, drop the remaining punctuation. -/
def pyNormalize (s : String) : String :=
  String.mk ((collapseWsAux false (pyStrip (pyLower s)).toList).filter keepChar)

/-- The category loop of DecisionEngine._extract_intent: return the first
category one of whose patterns matches. -/
def extractIntentAux : List (String × List Pat) → List Char → Option String
  | [], _ => none
  | (name, pats) :: rest, s =>
    match pats.find? (fun p => patMatch p s) with
    | some _ => some name
    | none => extractIntentAux rest s

/-- DecisionEngine._extract_intent, falling back to general. -/
def extractIntent (cmd : String) : String :=
  (extractIntentAux commandPatterns cmd.toList).getD ("general")

/-- The spec reading of intent classification (section 4.2 step 2): the
first domain in declaration order having at least one matching pattern;
the catch-all general domain when none matches. -/
def firstMatchingDomainSpec (cmd : String) : String :=
  ((commandPatterns.find? (fun d => d.2.any (fun p => patMatch p cmd.toList))).map
    (fun d => d.1)).getD ("general")

/-- Maximal digit runs of the command, re.findall of digit-plus. -/
def findNumberRuns (fuel : Nat) (l : List Char) : List (List Char) :=
  match fuel, l with
  | 0, _ => []
  | _, [] => []
  | fuel + 1, c :: rest =>
    if c.isDigit then
      ((c :: rest).takeWhile Char.isDigit) :: findNumberRuns fuel (rest.dropWhile Char.isDigit)
    else findNumberRuns fuel rest

/-- The direction vocabulary of _extract_entities, in alternation order. -/
def dirWords : List String :=
  ["forward", "backward", "left", "right", "up", "down", "north", "south", "east", "west"]

/-- re.findall of a literal alternation: scan left to right, at each
position try the alternatives in order, consume on match.  The fuel is
the input length; every alternative is non-empty so a match always
consumes at least one character. -/
def findAllAlts (ws : List String) (fuel : Nat) (l : List Char) : List String :=
  match fuel, l with
  | 0, _ => []
  | _, [] => []
  | fuel + 1, c :: rest =>
    match ws.find? (fun w => isPrefixOfL w.toList (c :: rest)) with
    | some w => w :: findAllAlts ws fuel (rest.drop (w.toList.length - 1))
    | none => findAllAlts ws fuel rest

/-- Greedy match of the number token -?digits(.digits*)? at the current
position, returning the matched text; greediness is forced for this token
(each sub-piece ends at the first character outside its class). -/
def matchNumTok (l : List Char) : Option (List Char × List Char) :=
  let (neg, l1) :=
    match l with
    | c :: rest => if c = minusChar then ([c], rest) else ([], l)
    | [] => ([], l)
  let ds := l1.takeWhile Char.isDigit
  if ds.isEmpty then none
  else
    let l2 := l1.dropWhile Char.isDigit
    match l2 with
    | c :: rest2 =>
      if c = periodChar then
        some (neg ++ ds ++ c :: rest2.takeWhile Char.isDigit, rest2.dropWhile Char.isDigit)
      else some (neg ++ ds, l2)
    | [] => some (neg ++ ds, l2)

/-- Match of the coordinate pattern (number, optional spaces, number) at
the current position; the two captures are kept as their raw texts (the
engine would pass them to float, which no verified claim inspects). -/
def matchCoordAt (l : List Char) : Option ((String × String) × List Char) :=
  match matchNumTok l with
  | none => none
  | some (n1, r1) =>
    match r1 with
    | c :: r2 =>
      if c = commaChar then
        match matchNumTok (r2.dropWhile isSpaceChar) with
        | some (n2, r4) => some ((String.mk n1, String.mk n2), r4)
        | none => none
      else none
    | [] => none

/-- re.findall of the coordinate pattern.  The fuel is the input length; a
match always consumes at least a digit and the comma. -/
def findCoords (fuel : Nat) (l : List Char) : List (String × String)  :=
  match fuel, l with
  | 0, _ => []
  | _, [] => []
  | fuel + 1, c :: rest =>
    match matchCoordAt (c :: rest) with
    | some (pair, r) => pair :: findCoords fuel r
    | none => findCoords fuel rest

/-- Entities extracted by DecisionEngine._extract_entities; an empty list
models the absent dict key. -/
structure Entities where
  numbers : List Nat
  directions : List String
  coordinates : List (String × String)
deriving DecidableEq

def extractEntities (cmd : String) : Entities where
  numbers := (findNumberRuns cmd.toList.length cmd.toList).map digitsToNat
  directions := findAllAlts dirWords cmd.toList.length cmd.toList
  coordinates := findCoords cmd.toList.length cmd.toList

/-- The data payloads carried by handler responses. -/
inductive RData
  | mode (m : String)
  | direction (d : Option String)
  | camera (a : String)
  | mission (m : String)
  | flight (a : Option String)
  | coords (cs : List (String × String))
  | entry (e : Entry)
  | stats (s : KStats)
deriving DecidableEq

/-- The response record of the engine: one structure with optional fields
models the loosely-keyed Python dicts the handlers return. -/
structure Response where
  status : String
  action : Option String := none
  message : String := ""
  data : Option RData := none
  source : Option String := none
  suggestion : Option String := none
  intent : Option String := none
  commands : Option (List String) := none
  timestamp : String
deriving DecidableEq

/-- The fallthrough response of _handle_system_control. -/
def systemCheckResp (now : String) : Response where
  status := "success"
  action := some "system_check"
  message := "System check initiated"
  timestamp := now

/-- DecisionEngine._handle_system_control. -/
def handleSystemControl (now cmd : String) : Response :=
  if pyIn ("status") cmd || pyIn ("health") cmd then
    { status := "success", action := some "get_system_status",
      message := "Retrieving system status", timestamp := now }
  else if pyIn ("mode") cmd then
    let mode : Option String :=
      if pyIn ("defense") cmd then some "defense"
      else if pyIn ("home") cmd then some "home"
      else if pyIn ("night") cmd then some "night"
      else if pyIn ("manual") cmd then some "manual"
      else none
    match mode with
    | some m =>
      { status := "success", action := some "change_mode", data := some (.mode m),
        message := "Switching to " ++ m ++ " mode", timestamp := now }
    | none => systemCheckResp now
  else systemCheckResp now

/-- Rendering of an optional direction in the movement f-string (Python
prints None). -/
def optText : Option String → String
  | some s => s
  | none => "None"

/-- DecisionEngine._handle_trinetra_control. -/
def handleTrinetraControl (now cmd : String) : Response :=
  if ["move", "forward", "backward", "left", "right"].any (fun w => pyIn w cmd) then
    let direction : Option String :=
      if pyIn ("forward") cmd then some "forward"
      else if pyIn ("backward") cmd then some "backward"
      else if pyIn ("left") cmd then some "left"
      else if pyIn ("right") cmd then some "right"
      else if pyIn ("stop") cmd then some "stop"
      else none
    { status := "success", action := some "trinetra_move", data := some (.direction direction),
      message := "TRINETRA moving " ++ optText direction, timestamp := now }
  else if ["camera", "stream", "snapshot"].any (fun w => pyIn w cmd) then
    { status := "success", action := some "trinetra_camera",
      data := some (.camera (if pyIn ("snapshot") cmd then "snapshot" else "stream")),
      message := "TRINETRA camera activated", timestamp := now }
  else if pyIn ("patrol") cmd then
    { status := "success", action := some "trinetra_mission", data := some (.mission ("patrol")),
      message := "TRINETRA patrol mode activated", timestamp := now }
  else
    { status := "success", action := some "trinetra_status",
      message := "TRINETRA status requested", timestamp := now }

/-- DecisionEngine._handle_krait3_control. -/
def handleKrait3Control (now : String) (ents : Entities) (cmd : String) : Response :=
  if ["launch", "takeoff", "land", "hover", "return"].any (fun w => pyIn w cmd) then
    let act : Option String :=
      if pyIn ("launch") cmd || pyIn ("takeoff") cmd then some "takeoff"
      else if pyIn ("land") cmd then some "land"
      else if pyIn ("hover") cmd then some "hover"
      else if pyIn ("return") cmd then some "return"
      else none
    { status := "success", action := some "krait3_flight", data := some (.flight act),
      message := "KRAIT-3 " ++ optText act ++ " command executed", timestamp := now }
  else if pyIn ("waypoint") cmd || pyIn ("navigate") cmd then
    { status := "success", action := some "krait3_navigation",
      data := some (.coords ents.coordinates),
      message := "KRAIT-3 navigation initiated", timestamp := now }
  else
    { status := "success", action := some "krait3_status",
      message := "KRAIT-3 status requested", timestamp := now }

/-- DecisionEngine._handle_voice_control. -/
def handleVoiceControl (now cmd : String) : Response :=
  if pyIn ("listen") cmd || pyIn ("start") cmd then
    { status := "success", action := some "voice_start",
      message := "Voice recognition started", timestamp := now }
  else if pyIn ("stop") cmd || pyIn ("quiet") cmd then
    { status := "success", action := some "voice_stop",
      message := "Voice recognition stopped", timestamp := now }
  else
    { status := "success", action := some "voice_status",
      message := "Voice system status", timestamp := now }

/-- The interrogative prefixes recognized by _handle_general and stripped
by _handle_knowledge_query. -/
def questionPrefixes : List String :=
  ["what is", "tell me about", "explain", "who is", "where is"]

/-- The prefix loop of _handle_knowledge_query: the first prefix found in
the topic is removed everywhere (str.replace) and the result stripped. -/
def stripQuestionLead : List String → String → String
  | [], t => t
  | p :: ps, t =>
    if pyIn p t then pyStrip (pyReplaceAll t p (""))
    else stripQuestionLead ps t

/-- The external collaborators of one process_command call: the Wikipedia
and weather HTTP endpoints and the salted Python string hash. -/
structure Oracles where
  wiki : String → WikiNet
  weather : String → WeatherNet
  pyHash : String → Nat

/-- DecisionEngine._handle_knowledge_query: extract the topic, reject an
empty one, otherwise search-and-learn and record the turn in conversation
memory. -/
def handleKnowledgeQuery (now cmd : String) (o : Oracles) (st : AIState) :
    Response × AIState :=
  let topic := stripQuestionLead questionPrefixes (pyLower cmd)
  if topic = "" then
    ({ status := "error",
       message := "Please specify what you would like to know about.",
       timestamp := now }, st)
  else
    let rsl := searchAndLearn now o.wiki topic st
    let st2 := learnFromConversation now o.pyHash cmd rsl.1.message rsl.2.1
    ({ status := rsl.1.status, action := some "knowledge_query",
       message := rsl.1.message, data := some (.entry (rsl.1.data.getD [])),
       source := some (rsl.1.source.getD ("unknown")), timestamp := now }, st2)

/-- First index of an element in a list (Python list.index on the found
element). -/
def pyIndexOf (x : String) : List String → Nat
  | [] => 0
  | y :: ys => if y = x then 0 else pyIndexOf x ys + 1

/-- City extraction of _handle_weather_query: the word after the first
standalone in, defaulting to London. -/
def extractCity (cmd : String) : String :=
  let words := pySplitWs cmd
  if words.contains ("in") then
    let i := pyIndexOf ("in") words + 1
    if i < words.length then words.getD i ("London") else "London"
  else "London"

/-- DecisionEngine._handle_weather_query. -/
def handleWeatherQuery (now cmd : String) (o : Oracles) (st : AIState) :
    Response × AIState :=
  let r := getWeatherInfo now o.weather (extractCity cmd) st
  ({ status := r.1.status, action := some "weather_query", message := r.1.message,
     data := some (.entry (r.1.data.getD [])), timestamp := now }, r.2)

/-- DecisionEngine._handle_knowledge_stats; get_knowledge_stats never
raises in the model, so the error branch of the message is not taken. -/
def handleKnowledgeStats (now : String) (st : AIState) : Response :=
  let stats := getKnowledgeStats st
  { status := "success", action := some "knowledge_stats",
    message := "I have learned " ++ String.mk (natToDigits stats.totalEntries) ++
      " things so far. Sources: " ++
      (if stats.sources.isEmpty then "None yet"
       else String.intercalate (", ") (stats.sources.map (fun kv => kv.1))) ++ ".",
    data := some (.stats stats), timestamp := now }

/-- The message payload of the knowledge_recall branch: the summary field,
defaulting to the first 200 characters of str(record). -/
def recallText (e : Entry) : String :=
  match dictGet? ("summary") e with
  | some v => fvalToText v
  | none => pyTakeStr 200 (pyStrEntry e)

/-- The final fallback response of _handle_general. -/
def defaultResp (now : String) : Response where
  status := "success"
  action := some "default"
  message := "Command received. I can help with system control, or you can ask me questions to help me learn."
  suggestion := some "Try asking \"what is artificial intelligence\" or \"help\" for available commands"
  timestamp := now

/-- DecisionEngine._handle_general: greeting, help, thanks and farewell
keywords, then knowledge query, weather, stats, knowledge-base recall and
the default answer. -/
def handleGeneral (now cmd : String) (o : Oracles) (st : AIState) :
    Response × AIState :=
  if ["hello", "hi", "hey"].any (fun w => pyIn w cmd) then
    ({ status := "success", action := some "greeting",
       message := "Hello Commander. LYRA 3.0 is ready for your commands.",
       timestamp := now }, st)
  else if pyIn ("help") cmd then
    ({ status := "success", action := some "help",
       message := "Available commands: system status, TRINETRA control, KRAIT-3 control, voice commands, ask about anything",
       commands := some
         ["system status - Get system health",
          "TRINETRA move forward - Control ground bot",
          "KRAIT-3 launch - Control UAV",
          "start listening - Voice recognition",
          "what is [topic] - Learn about topics",
          "weather in [city] - Get weather info",
          "knowledge stats - See what I have learned"],
       timestamp := now }, st)
  else if ["thank", "thanks"].any (fun w => pyIn w cmd) then
    ({ status := "success", action := some "acknowledge",
       message := "You are welcome, Commander.", timestamp := now }, st)
  else if ["goodbye", "bye", "exit"].any (fun w => pyIn w cmd) then
    ({ status := "success", action := some "goodbye",
       message := "Goodbye Commander. LYRA 3.0 standing by.", timestamp := now }, st)
  else if questionPrefixes.any (fun w => pyIn w cmd) then
    handleKnowledgeQuery now cmd o st
  else if pyIn ("weather") cmd then
    handleWeatherQuery now cmd o st
  else if pyIn ("knowledge stats") cmd || pyIn ("what do you know") cmd then
    (handleKnowledgeStats now st, st)
  else
    match searchLocalKnowledge cmd st.knowledgeBase with
    | best :: _ =>
      ({ status := "success", action := some "knowledge_recall",
         message := "I found this in my knowledge base: " ++ recallText best.data,
         data := some (.entry best.data), timestamp := now }, st)
    | [] => (defaultResp now, st)

/-- DecisionEngine._generate_response: dispatch on the classified intent;
the unknown branch is the dead fallthrough of the source. -/
def generateResponse (now intent : String) (ents : Entities) (cmd : String)
    (o : Oracles) (st : AIState) : Response × AIState :=
  if intent = "system_control" then (handleSystemControl now cmd, st)
  else if intent = "trinetra_control" then (handleTrinetraControl now cmd, st)
  else if intent = "krait3_control" then (handleKrait3Control now ents cmd, st)
  else if intent = "voice_control" then (handleVoiceControl now cmd, st)
  else if intent = "general" then handleGeneral now cmd o st
  else
    ({ status := "unknown", message := "Intent not recognized", intent := some intent,
       suggestion := some "Try asking for help or status", timestamp := now }, st)

/-- The full engine state: the context store the engine holds a reference
to (and, in the source, never reads or writes) and the learning system. -/
structure EngineState where
  ctx : CtxState
  ai : AIState
deriving DecidableEq

/-- DecisionEngine.process_command: normalize, classify, extract entities,
dispatch; the interaction log has no observable effect.  The top-level
try/except of the source converts any raised exception into an error
response; the embedded pipeline is total, so the except branch is
unreachable here. -/
def processCommand (st : EngineState) (o : Oracles) (now command : String) :
    Response × EngineState :=
  let ncmd := pyNormalize command
  let intent := extractIntent ncmd
  let ents := extractEntities ncmd
  let r := generateResponse now intent ents ncmd o st.ai
  (r.1, { st with ai := r.2 })

/-- An engine over a freshly constructed context store and learning
system. -/
def initialEngineState (now : String) : EngineState where
  ctx := CtxState.init now
  ai := AIState.init

/-- A concrete set of collaborators for closed evaluations: the network
answers not-ok and the hash is constant. -/
def trivialOracles : Oracles where
  wiki := fun _ => .notOk
  weather := fun _ => .notOk
  pyHash := fun _ => 0

/-! ## Operation sequences over the knowledge cache (for the access-count
invariant) -/

/-- The mutating and reading operations of AILearningSystem reachable from
the engine: direct storage, lookup-or-learn, conversation memory, weather
lookup. -/
inductive AIOp
  | storeOp (now q : String) (data : Entry) (src : String)
  | lookupOp (now q : String)
  | convOp (now userInput sysResponse : String)
  | weatherOp (now city : String)

def applyAIOp (o : Oracles) (st : AIState) : AIOp → AIState
  | .storeOp now q d src => storeKnowledge now q d src st
  | .lookupOp now q => (searchAndLearn now o.wiki q st).2.1
  | .convOp now u r => learnFromConversation now o.pyHash u r st
  | .weatherOp now city => (getWeatherInfo now o.weather city st).2

def applyAIOps (o : Oracles) : AIState → List AIOp → AIState :=
  List.foldl (applyAIOp o)

/-- Every record in the cache either carries the access counter frozen at
one (knowledge records) or has no counter at all (conversation records). -/
def accessCountOk (kb : KB) : Prop :=
  ∀ kv ∈ kb, dictGet? ("access_count") kv.2 = some (.num 1) ∨
    dictGet? ("access_count") kv.2 = none

/-! ## Concrete inputs for the witness evaluations -/

/-- One hundred and one pairwise distinct conversation payloads. -/
def fifoEntries : List (String × String) :=
  (List.range 101).map (fun i => (String.mk (List.replicate i (Char.ofNat 97)), "t"))

/-- A two-record cache whose keys are lower-case: one key containing
paris, one record whose value text contains rainy. -/
def searchWitnessKB : KB :=
  [("paris weather", [("summary", .str ("sunny"))]),
   ("k2", [("note", .str ("very rainy day"))])]

/-! ## Dictionary lemmas -/

theorem dictGet?_insert_self (k : String) (v : α) (l : List (String × α)) :
    dictGet? k (dictInsert k v l) = some v := by
  induction l with
  | nil => simp [dictInsert, dictGet?]
  | cons kv rest ih =>
    by_cases h : kv.1 = k
    · simp [dictInsert, dictGet?, h]
    · simpa [dictInsert, dictGet?, h] using ih

theorem dictGet?_insert_ne (hne : k2 ≠ k1) (v : α) (l : List (String × α)) :
    dictGet? k1 (dictInsert k2 v l) = dictGet? k1 l := by
  induction l with
  | nil => simp [dictInsert, dictGet?, hne]
  | cons kv rest ih =>
    by_cases h : kv.1 = k2
    · simp [dictInsert, dictGet?, h, hne]
    · simp only [dictInsert, h, if_false]
      by_cases h1 : kv.1 = k1 <;> simp [dictGet?, h1, ih]

theorem mem_dictInsert (kv : String × α) (k : String) (v : α) (l : List (String × α)) :
    kv ∈ dictInsert k v l → kv = (k, v) ∨ kv ∈ l := by
  induction l with
  | nil => intro h; simpa [dictInsert] using h
  | cons kv1 rest ih =>
    intro h
    by_cases h1 : kv1.1 = k
    · simp only [dictInsert, h1, if_true, List.mem_cons] at h
      rcases h with h | h
      · exact Or.inl h
      · exact Or.inr (List.mem_cons_of_mem _ h)
    · simp only [dictInsert, h1, if_false, List.mem_cons] at h
      rcases h with h | h
      · exact Or.inr (by simp [h])
      · rcases ih h with h2 | h2
        · exact Or.inl h2
        · exact Or.inr (List.mem_cons_of_mem _ h2)

theorem dictInsert_ne_nil (k : String) (v : α) (l : List (String × α)) :
    dictInsert k v l ≠ [] := by
  cases l with
  | nil => simp [dictInsert]
  | cons kv rest =>
    by_cases h : kv.1 = k <;> simp [dictInsert, h]

/-! ## Claim C3: set_mode -/

/-- C3: for every mode in the fixed enumeration, set_mode followed by
get_mode returns that mode (and only mode and last_activity change); for
every value outside the enumeration set_mode leaves the whole state
unchanged (the invalid-value warning is a log line with no state
effect). -/
theorem setMode_valid_invalid (st : CtxState) (now m : String) :
    (m ∈ validModes →
      (st.setMode now m).getMode = m ∧
      st.setMode now m = { st with currentMode := m, lastActivity := now }) ∧
    (m ∉ validModes → st.setMode now m = st) := by
  constructor
  · intro h
    constructor <;> simp [CtxState.setMode, CtxState.getMode, h]
  · intro h
    simp [CtxState.setMode, h]

/-- Witness for C3: applying set_mode with the valid value defense and
with the invalid value lunar on a fresh store. -/
theorem setMode_valid_invalid_witness :
    (CtxState.getMode (CtxState.setMode (CtxState.init ("t")) ("t1") ("defense")) = "defense")
    ∧ CtxState.setMode (CtxState.init ("t")) ("t1") ("lunar") = CtxState.init ("t") :=
  ⟨((setMode_valid_invalid (CtxState.init ("t")) ("t1") ("defense")).1 (by decide)).1,
   (setMode_valid_invalid (CtxState.init ("t")) ("t1") ("lunar")).2 (by decide)⟩

/-! ## Claim C4: bounded FIFO conversation history -/

theorem addConversationEntry_history (st : CtxState) (now payload : String) :
    (st.addConversationEntry now payload).conversationHistory =
      (st.conversationHistory ++ [ConvEntry.mk payload now]).drop
        ((st.conversationHistory.length + 1) - 100) := by
  unfold CtxState.addConversationEntry
  by_cases h : (st.conversationHistory ++ [ConvEntry.mk payload now]).length > 100
  · simp only [h, if_true]
    simp [List.length_append]
  · simp only [h, if_false]
    have hle : st.conversationHistory.length + 1 ≤ 100 := by
      simp [List.length_append] at h; omega
    simp [Nat.sub_eq_zero_of_le hle]

theorem addConversationEntry_len_le (st : CtxState) (now payload : String) :
    (st.addConversationEntry now payload).conversationHistory.length ≤ 100 := by
  rw [addConversationEntry_history]
  simp only [List.length_drop, List.length_append, List.length_singleton]
  omega

/-- The history after a call sequence is the suffix of the appended
entries that fits the 100-entry bound. -/
theorem addMany_history (es : List (String × String)) (st : CtxState)
    (hlen : st.conversationHistory.length ≤ 100) :
    (CtxState.addMany st es).conversationHistory =
      (st.conversationHistory ++ es.map mkConv).drop
        ((st.conversationHistory.length + es.length) - 100) := by
  induction es generalizing st with
  | nil =>
    simp [CtxState.addMany, Nat.sub_eq_zero_of_le hlen]
  | cons e rest ih =>
    have step : CtxState.addMany st (e :: rest) =
        CtxState.addMany (st.addConversationEntry e.2 e.1) rest := rfl
    have hmk : ConvEntry.mk e.1 e.2 = mkConv e := rfl
    have h1 : (st.addConversationEntry e.2 e.1).conversationHistory =
        (st.conversationHistory ++ [mkConv e]).drop
          ((st.conversationHistory.length + 1) - 100) := by
      rw [addConversationEntry_history st e.2 e.1, hmk]
    have h1len : (st.addConversationEntry e.2 e.1).conversationHistory.length ≤ 100 :=
      addConversationEntry_len_le st e.2 e.1
    rw [step, ih _ h1len, h1]
    have hd : (st.conversationHistory.length + 1) - 100 ≤
        (st.conversationHistory ++ [mkConv e]).length := by
      simp [List.length_append]; omega
    have e1 : ((st.conversationHistory ++ [mkConv e]) ++ rest.map mkConv).drop
          ((st.conversationHistory.length + 1) - 100) =
        ((st.conversationHistory ++ [mkConv e]).drop
          ((st.conversationHistory.length + 1) - 100)) ++ rest.map mkConv := by
      rw [List.drop_append_eq_append_drop, Nat.sub_eq_zero_of_le hd, List.drop_zero]
    rw [← e1, List.drop_drop]
    have e2 : (st.conversationHistory ++ [mkConv e]) ++ rest.map mkConv =
        st.conversationHistory ++ (e :: rest).map mkConv := by
      simp [List.append_assoc]
    rw [e2]
    have harith : st.conversationHistory.length + 1 - 100 +
        ((List.drop (st.conversationHistory.length + 1 - 100)
            (st.conversationHistory ++ [mkConv e])).length + rest.length - 100) =
        st.conversationHistory.length + (e :: rest).length - 100 := by
      simp only [List.length_drop, List.length_append, List.length_singleton,
        List.length_cons, List.length_nil]
      omega
    rw [harith]

/-- C4: starting from an empty history, any sequence of
add_conversation_entry calls leaves the most recent at-most-100 entries in
insertion order; after 101 inserts the first entry has been evicted (it is
absent whenever it differs from the later ones) and the last entry is
present. -/
theorem conversationHistory_fifo (st : CtxState) (es : List (String × String))
    (h0 : st.conversationHistory = []) :
    (CtxState.addMany st es).conversationHistory = (es.map mkConv).drop (es.length - 100)
    ∧ (CtxState.addMany st es).conversationHistory.length ≤ 100
    ∧ (es.length = 101 →
        (∀ e0, es.head? = some e0 → mkConv e0 ∉ (es.map mkConv).drop 1 →
          mkConv e0 ∉ (CtxState.addMany st es).conversationHistory)
        ∧ (∀ eL, es.getLast? = some eL →
          mkConv eL ∈ (CtxState.addMany st es).conversationHistory)) := by
  have hmain : (CtxState.addMany st es).conversationHistory =
      (es.map mkConv).drop (es.length - 100) := by
    have := addMany_history es st (by rw [h0]; simp)
    rwa [h0, List.nil_append, List.length_nil, Nat.zero_add] at this
  refine ⟨hmain, ?_, ?_⟩
  · rw [hmain]
    simp only [List.length_drop, List.length_map]
    omega
  · intro h101
    constructor
    · intro e0 _ habs
      rw [hmain, h101]
      simpa using habs
    · intro eL hlast
      rcases List.getLast?_eq_some_iff.mp hlast with ⟨pre, hpre⟩
      rw [hmain, h101, hpre]
      have hprelen : pre.length = 100 := by
        have : es.length = pre.length + 1 := by rw [hpre]; simp
        omega
      rw [List.map_append, List.drop_append_eq_append_drop]
      simp [hprelen]

/-- Witness for C4: one hundred and one distinct inserts on a fresh store;
the bound holds, the first entry is gone and the last is present. -/
theorem conversationHistory_fifo_witness :
    (CtxState.addMany (CtxState.init ("t")) fifoEntries).conversationHistory.length ≤ 100
    ∧ mkConv (("", "t")) ∉
        (CtxState.addMany (CtxState.init ("t")) fifoEntries).conversationHistory
    ∧ mkConv ((String.mk (List.replicate 100 (Char.ofNat 97)), "t")) ∈
        (CtxState.addMany (CtxState.init ("t")) fifoEntries).conversationHistory := by
  have h := conversationHistory_fifo (CtxState.init ("t")) fifoEntries rfl
  refine ⟨h.2.1, ?_, ?_⟩
  · exact (h.2.2 (by decide)).1 (("", "t")) (by decide) (by decide)
  · exact (h.2.2 (by decide)).2 ((String.mk (List.replicate 100 (Char.ofNat 97)), "t")) (by decide)

/-! ## Claim C7: first-match intent classification -/

theorem extractIntentAux_eq_find (l : List (String × List Pat)) (s : List Char) :
    extractIntentAux l s =
      (l.find? (fun d => d.2.any (fun p => patMatch p s))).map (fun d => d.1) := by
  induction l with
  | nil => rfl
  | cons d rest ih =>
    cases hf : d.2.find? (fun p => patMatch p s) with
    | some q =>
      have hq : patMatch q s = true := by
        have := List.find?_some hf
        simpa using this
      have hany : d.2.any (fun p => patMatch p s) = true :=
        List.any_eq_true.mpr ⟨q, List.mem_of_find?_eq_some hf, hq⟩
      simp [extractIntentAux, hf, List.find?_cons, hany]
    | none =>
      have hany : d.2.any (fun p => patMatch p s) = false := by
        rw [List.any_eq_false]
        intro p hp
        exact List.find?_eq_none.mp hf p hp
      simp [extractIntentAux, hf, List.find?_cons, hany, ih]

/-- C7: the classified intent of every normalized command is the first
domain, in the fixed declaration order system_control, trinetra_control,
krait3_control, voice_control, general, one of whose patterns matches the
command, and the catch-all general when no domain matches. -/
theorem extractIntent_first_match (cmd : String) :
    extractIntent cmd = firstMatchingDomainSpec cmd
    ∧ commandPatterns.map (fun d => d.1) =
        ["system_control", "trinetra_control", "krait3_control", "voice_control", "general"] := by
  constructor
  · unfold extractIntent firstMatchingDomainSpec
    rw [extractIntentAux_eq_find]
  · rfl

/-! ## Claim C1: response statuses of process_command -/

theorem handleSystemControl_status (now cmd : String) :
    (handleSystemControl now cmd).status = "success" := by
  unfold handleSystemControl systemCheckResp
  repeat' split
  all_goals rfl

theorem handleTrinetraControl_status (now cmd : String) :
    (handleTrinetraControl now cmd).status = "success" := by
  unfold handleTrinetraControl
  repeat' split
  all_goals rfl

theorem handleKrait3Control_status (now : String) (ents : Entities) (cmd : String) :
    (handleKrait3Control now ents cmd).status = "success" := by
  unfold handleKrait3Control
  repeat' split
  all_goals rfl

theorem handleVoiceControl_status (now cmd : String) :
    (handleVoiceControl now cmd).status = "success" := by
  unfold handleVoiceControl
  repeat' split
  all_goals rfl

theorem searchAndLearnMiss_status (now : String) (net : String → WikiNet) (q : String)
    (st : AIState) :
    (searchAndLearnMiss now net q st).1.status = "success" ∨
    (searchAndLearnMiss now net q st).1.status = "not_found" := by
  unfold searchAndLearnMiss
  cases searchWikipedia now net st.cfg q <;> simp [slNotFound]

theorem searchAndLearn_status (now : String) (net : String → WikiNet) (q : String)
    (st : AIState) :
    (searchAndLearn now net q st).1.status = "success" ∨
    (searchAndLearn now net q st).1.status = "not_found" ∨
    (searchAndLearn now net q st).1.status = "error" := by
  unfold searchAndLearn
  cases hkb : searchKnowledgeBase q st.knowledgeBase with
  | none =>
    rcases searchAndLearnMiss_status now net q st with h | h <;> simp [h]
  | some e =>
    by_cases he : e.isEmpty = true
    · simp only [he, if_true]
      rcases searchAndLearnMiss_status now net q st with h | h <;> simp [h]
    · simp only [he, if_false]
      cases summarySlice200 e <;> simp

theorem getWeatherInfo_status (now : String) (net : String → WeatherNet) (city : String)
    (st : AIState) :
    (getWeatherInfo now net city st).1.status = "disabled" ∨
    (getWeatherInfo now net city st).1.status = "success" ∨
    (getWeatherInfo now net city st).1.status = "not_found" ∨
    (getWeatherInfo now net city st).1.status = "error" := by
  unfold getWeatherInfo
  split
  · simp
  · cases net city <;> simp

theorem handleKnowledgeQuery_status (now cmd : String) (o : Oracles) (st : AIState) :
    (handleKnowledgeQuery now cmd o st).1.status = "success" ∨
    (handleKnowledgeQuery now cmd o st).1.status = "not_found" ∨
    (handleKnowledgeQuery now cmd o st).1.status = "error" := by
  by_cases h : stripQuestionLead questionPrefixes (pyLower cmd) = ""
  · simp [handleKnowledgeQuery, h]
  · rcases searchAndLearn_status now o.wiki
      (stripQuestionLead questionPrefixes (pyLower cmd)) st with hs | hs | hs <;>
      simp [handleKnowledgeQuery, h, hs]

theorem handleWeatherQuery_status (now cmd : String) (o : Oracles) (st : AIState) :
    (handleWeatherQuery now cmd o st).1.status = "disabled" ∨
    (handleWeatherQuery now cmd o st).1.status = "success" ∨
    (handleWeatherQuery now cmd o st).1.status = "not_found" ∨
    (handleWeatherQuery now cmd o st).1.status = "error" := by
  unfold handleWeatherQuery
  rcases getWeatherInfo_status now o.weather (extractCity cmd) st with h | h | h | h <;> simp [h]

theorem handleGeneral_status (now cmd : String) (o : Oracles) (st : AIState) :
    (handleGeneral now cmd o st).1.status = "success" ∨
    (handleGeneral now cmd o st).1.status = "error" ∨
    (handleGeneral now cmd o st).1.status = "not_found" ∨
    (handleGeneral now cmd o st).1.status = "disabled" := by
  unfold handleGeneral
  split
  · simp
  · split
    · simp
    · split
      · simp
      · split
        · simp
        · split
          · rcases handleKnowledgeQuery_status now cmd o st with h | h | h <;> simp [h]
          · split
            · rcases handleWeatherQuery_status now cmd o st with h | h | h | h <;> simp [h]
            · split
              · simp [handleKnowledgeStats]
              · split <;> simp [defaultResp]

theorem generateResponse_status (now intent : String) (ents : Entities) (cmd : String)
    (o : Oracles) (st : AIState) :
    (generateResponse now intent ents cmd o st).1.status ∈
      (["success", "error", "unknown", "not_found", "disabled"] : List String) := by
  unfold generateResponse
  split
  · simp [handleSystemControl_status]
  · split
    · simp [handleTrinetraControl_status]
    · split
      · simp [handleKrait3Control_status]
      · split
        · simp [handleVoiceControl_status]
        · split
          · rcases handleGeneral_status now cmd o st with h | h | h | h <;> simp [h]
          · simp

/-- C1 (amended): process_command always returns a structured response
record (the embedded pipeline is total; the top-level except of the source
converts any raised exception into an error record), and the status of
every returned record lies in success, error, unknown, not_found,
disabled — the source also emits not_found (failed knowledge lookups) and
disabled (unconfigured weather lookups) beyond the success, error, unknown
triple the claim lists. -/
theorem processCommand_status_set (st : EngineState) (o : Oracles) (now cmd : String) :
    (processCommand st o now cmd).1.status ∈
      (["success", "error", "unknown", "not_found", "disabled"] : List String) := by
  unfold processCommand
  exact generateResponse_status now (extractIntent (pyNormalize cmd))
    (extractEntities (pyNormalize cmd)) (pyNormalize cmd) o st.ai

set_option maxRecDepth 10000

/-- C1 counterexample: the input weather in paris (with the engine in its
constructed configuration, where the weather API is disabled) produces a
response whose status is disabled, which is outside the success, error,
unknown set the claim allows. -/
theorem processCommand_status_counterexample :
    (processCommand (initialEngineState ("t0")) trivialOracles ("t1")
        ("weather in paris")).1.status = "disabled"
    ∧ ("disabled" : String) ∉ (["success", "error", "unknown"] : List String) := by
  constructor
  · decide
  · decide

/-- C2 counterexample: processing Switch to defense mode returns the
success, change_mode, defense response the claim describes, but the engine
never writes the Context Store, so a subsequent get_mode still answers
home, not defense. -/
theorem defenseMode_getMode_counterexample :
    (processCommand (initialEngineState ("t0")) trivialOracles ("t1")
        ("Switch to defense mode")).1.status = "success"
    ∧ (processCommand (initialEngineState ("t0")) trivialOracles ("t1")
        ("Switch to defense mode")).1.action = some "change_mode"
    ∧ (processCommand (initialEngineState ("t0")) trivialOracles ("t1")
        ("Switch to defense mode")).1.data = some (RData.mode ("defense"))
    ∧ ¬ (processCommand (initialEngineState ("t0")) trivialOracles ("t1")
        ("Switch to defense mode")).2.ctx.getMode = "defense" := by
  refine ⟨by decide, by decide, by decide, by decide⟩

/-- C2 (amended): Switch to defense mode is classified into
system_control, the handler detects the defense keyword and returns the
response with status success, action change_mode and data mode defense;
the engine leaves the Context Store untouched (so get_mode alone still
answers home), and get_mode returns defense once the caller applies the
returned mode via set_mode. -/
theorem defenseMode_pipeline :
    extractIntent (pyNormalize ("Switch to defense mode")) = "system_control"
    ∧ (processCommand (initialEngineState ("t0")) trivialOracles ("t1")
        ("Switch to defense mode")).1 =
      { status := "success", action := some "change_mode",
        data := some (RData.mode ("defense")),
        message := "Switching to defense mode", timestamp := "t1" }
    ∧ (processCommand (initialEngineState ("t0")) trivialOracles ("t1")
        ("Switch to defense mode")).2.ctx = (initialEngineState ("t0")).ctx
    ∧ CtxState.getMode
        (CtxState.setMode
          ((processCommand (initialEngineState ("t0")) trivialOracles ("t1")
            ("Switch to defense mode")).2.ctx) ("t2") ("defense")) = "defense" := by
  refine ⟨by decide, by decide, by decide, by decide⟩

/-! ## Claims C5 and C6: cache hit after store, miss on external failure -/

theorem searchKnowledgeBase_store (q : String) (r : Entry) (kb : KB) :
    searchKnowledgeBase q (dictInsert (pyLower q) r kb) = some r := by
  unfold searchKnowledgeBase
  dsimp only
  rw [dictGet?_insert_self]

theorem mkStoreRecord_accessCount (now : String) (data : Entry) (src : String) :
    dictGet? ("access_count") (mkStoreRecord now data src) = some (.num 1) := by
  unfold mkStoreRecord
  rw [dictGet?_insert_self]

theorem mkStoreRecord_isEmpty (now : String) (data : Entry) (src : String) :
    (mkStoreRecord now data src).isEmpty = false := by
  unfold mkStoreRecord
  cases h : dictInsert ("access_count") (FVal.num 1)
      (dictInsert ("learned_at") (FVal.str now) (dictInsert ("source") (FVal.str src) data)) with
  | nil => exact absurd h (dictInsert_ne_nil _ _ _)
  | cons a l => rfl

theorem mkStoreRecord_summary (now : String) (data : Entry) (src : String) :
    dictGet? ("summary") (mkStoreRecord now data src) = dictGet? ("summary") data := by
  unfold mkStoreRecord
  rw [dictGet?_insert_ne (by decide), dictGet?_insert_ne (by decide),
    dictGet?_insert_ne (by decide)]

/-- C5: store(q, payload, src) immediately followed by lookup_or_learn(q)
answers success from the knowledge_base source, the returned record
carries the access_count metadata (set to one), and the external
collaborator is not invoked (the invocation flag of the lookup is false).
The payload hypothesis says its summary field, if any, is a string — a
non-string summary would make the Python hit path raise a TypeError into
the error answer. -/
theorem store_then_lookup (now now2 q src : String) (data : Entry) (st : AIState)
    (net : String → WikiNet) (hsum : summaryIsStr data = true) :
    (searchAndLearn now2 net q (storeKnowledge now q data src st)).1.status = "success"
    ∧ (searchAndLearn now2 net q (storeKnowledge now q data src st)).1.source =
        some "knowledge_base"
    ∧ (∃ e, (searchAndLearn now2 net q (storeKnowledge now q data src st)).1.data = some e
        ∧ dictGet? ("access_count") e = some (.num 1))
    ∧ (searchAndLearn now2 net q (storeKnowledge now q data src st)).2.2 = false := by
  have hkb : searchKnowledgeBase q (storeKnowledge now q data src st).knowledgeBase =
      some (mkStoreRecord now data src) := by
    unfold storeKnowledge
    exact searchKnowledgeBase_store q _ st.knowledgeBase
  have hslice : ∃ s, summarySlice200 (mkStoreRecord now data src) = some s := by
    unfold summarySlice200
    rw [mkStoreRecord_summary]
    unfold summaryIsStr at hsum
    cases hd : dictGet? ("summary") data with
    | none => exact ⟨"", rfl⟩
    | some v =>
      cases v with
      | str s => exact ⟨pyTakeStr 200 s, rfl⟩
      | num n => rw [hd] at hsum; simp at hsum
      | boolV b => rw [hd] at hsum; simp at hsum
  obtain ⟨s, hs⟩ := hslice
  unfold searchAndLearn
  rw [hkb]
  simp [mkStoreRecord_isEmpty, hs, mkStoreRecord_accessCount]

/-- Witness for C5: a concrete store followed by the lookup on a fresh
learning system. -/
theorem store_then_lookup_witness :
    summaryIsStr [(("summary"), FVal.str ("capital of France"))] = true
    ∧ (searchAndLearn ("t2") trivialOracles.wiki ("Paris")
        (storeKnowledge ("t1") ("Paris") [(("summary"), FVal.str ("capital of France"))]
          ("wikipedia") AIState.init)).1.source = some "knowledge_base"
    ∧ (searchAndLearn ("t2") trivialOracles.wiki ("Paris")
        (storeKnowledge ("t1") ("Paris") [(("summary"), FVal.str ("capital of France"))]
          ("wikipedia") AIState.init)).2.2 = false := by
  have h := store_then_lookup ("t1") ("t2") ("Paris") ("wikipedia")
    [(("summary"), FVal.str ("capital of France"))] AIState.init trivialOracles.wiki (by decide)
  exact ⟨by decide, h.2.1, h.2.2.2⟩

/-- C6: when the query misses the cache and the external lookup is
disabled, fails, times out or reports not-found, lookup-or-learn answers
not_found (no exception: the embedded call is total and the transport
exception outcome lands in this same branch), and the learning state —
both the in-memory knowledge base and the persisted document — is exactly
unchanged. -/
theorem lookup_external_failure (now q : String) (net : String → WikiNet) (st : AIState)
    (habs : searchKnowledgeBase q st.knowledgeBase = none)
    (hfail : (searchWikipedia now net st.cfg q).isSuccess = false) :
    (searchAndLearn now net q st).1.status = "not_found"
    ∧ (searchAndLearn now net q st).2.1 = st := by
  unfold searchAndLearn
  rw [habs]
  unfold searchAndLearnMiss
  cases hw : searchWikipedia now net st.cfg q with
  | success d => rw [hw] at hfail; simp [WikiResult.isSuccess] at hfail
  | notFound => simp [slNotFound]
  | disabled => simp [slNotFound]
  | error m => simp [slNotFound]

/-- Witness for C6: an absent query against an empty cache with a
Wikipedia endpoint answering non-200. -/
theorem lookup_external_failure_witness :
    (searchAndLearn ("t1") trivialOracles.wiki ("zzz") AIState.init).1.status = "not_found"
    ∧ (searchAndLearn ("t1") trivialOracles.wiki ("zzz") AIState.init).2.1 = AIState.init :=
  lookup_external_failure ("t1") ("zzz") trivialOracles.wiki AIState.init (by decide) (by decide)

/-! ## Claim C8: relevance-tiered local search -/

theorem mem_collectHits (ql : String) (kb : KB) (r : SearchHit) (h : r ∈ collectHits ql kb) :
    ∃ kv ∈ kb, r.key = kv.1 ∧ r.data = kv.2 ∧
      ((r.relevance = "high" ∧ pyIn ql kv.1 = true) ∨
       (r.relevance = "medium" ∧ pyIn ql kv.1 = false ∧
         pyIn ql (pyLower (pyStrEntry kv.2)) = true)) := by
  rw [collectHits, List.mem_filterMap] at h
  obtain ⟨kv, hkv, hf⟩ := h
  refine ⟨kv, hkv, ?_⟩
  by_cases h1 : pyIn ql kv.1 = true
  · simp only [h1, if_true] at hf
    injection hf with hf
    subst hf
    exact ⟨rfl, rfl, Or.inl ⟨rfl, h1⟩⟩
  · simp only [h1, if_false] at hf
    by_cases h2 : pyIn ql (pyLower (pyStrEntry kv.2)) = true
    · simp only [h2, if_true] at hf
      injection hf with hf
      subst hf
      exact ⟨rfl, rfl, Or.inr ⟨rfl, by simpa using h1, h2⟩⟩
    · simp [h2] at hf

theorem collectHits_keys_sublist (ql : String) (kb : KB) :
    ((collectHits ql kb).map SearchHit.key).Sublist (kb.map Prod.fst) := by
  induction kb with
  | nil => simp [collectHits]
  | cons kv rest ih =>
    rw [collectHits, List.filterMap_cons]
    by_cases h1 : pyIn ql kv.1 = true
    · simp only [h1, if_true, List.map_cons]
      exact List.Sublist.cons₂ _ ih
    · simp only [h1, if_false]
      by_cases h2 : pyIn ql (pyLower (pyStrEntry kv.2)) = true
      · simp only [h2, if_true, List.map_cons]
        exact List.Sublist.cons₂ _ ih
      · simp only [h2, if_false, List.map_cons]
        exact List.Sublist.cons _ ih

/-- C8: local search returns at most five rows, decomposable as the
high-relevance rows (query contained in the key, case-insensitively for
the normalized lower-case keys the store writes) followed by the
medium-relevance rows (query contained only in the lower-cased str()
rendering of the record), each tier keeping the insertion order of the
knowledge base. -/
theorem searchLocal_tiers (q : String) (kb : KB)
    (hkeys : ∀ kv ∈ kb, pyLower kv.1 = kv.1) :
    (searchLocalKnowledge q kb).length ≤ 5
    ∧ ∃ hs ms, searchLocalKnowledge q kb = hs ++ ms
      ∧ (∀ r ∈ hs, r.relevance = "high" ∧ pyIn (pyLower q) (pyLower r.key) = true)
      ∧ (∀ r ∈ ms, r.relevance = "medium" ∧ pyIn (pyLower q) (pyLower r.key) = false
          ∧ pyIn (pyLower q) (pyLower (pyStrEntry r.data)) = true)
      ∧ (hs.map SearchHit.key).Sublist (kb.map Prod.fst)
      ∧ (ms.map SearchHit.key).Sublist (kb.map Prod.fst) := by
  constructor
  · unfold searchLocalKnowledge
    simp only [List.length_take]
    omega
  · refine ⟨((collectHits (pyLower q) kb).filter SearchHit.isHigh).take 5,
      ((collectHits (pyLower q) kb).filter (fun r => !r.isHigh)).take
        (5 - ((collectHits (pyLower q) kb).filter SearchHit.isHigh).length), ?_, ?_, ?_, ?_, ?_⟩
    · unfold searchLocalKnowledge sortByRelevance
      rw [List.take_append_eq_append_take]
    · intro r hr
      have hrH : r ∈ (collectHits (pyLower q) kb).filter SearchHit.isHigh :=
        (List.take_sublist _ _).mem hr
      have hrel : r.relevance = "high" := by
        have := (List.mem_filter.mp hrH).2
        unfold SearchHit.isHigh at this
        simpa using this
      obtain ⟨kv, hkv, hkey, _, hcase⟩ :=
        mem_collectHits (pyLower q) kb r (List.mem_of_mem_filter hrH)
      rcases hcase with ⟨_, hin⟩ | ⟨hmed, _⟩
      · refine ⟨hrel, ?_⟩
        rw [hkey, hkeys kv hkv]
        exact hin
      · rw [hrel] at hmed
        exact absurd hmed (by decide)
    · intro r hr
      have hrM : r ∈ (collectHits (pyLower q) kb).filter (fun r => !r.isHigh) :=
        (List.take_sublist _ _).mem hr
      have hrel : ¬ r.relevance = "high" := by
        have := (List.mem_filter.mp hrM).2
        unfold SearchHit.isHigh at this
        simpa using this
      obtain ⟨kv, hkv, hkey, hdata, hcase⟩ :=
        mem_collectHits (pyLower q) kb r (List.mem_of_mem_filter hrM)
      rcases hcase with ⟨hhigh, _⟩ | ⟨hmed, hnin, hin⟩
      · exact absurd hhigh hrel
      · refine ⟨hmed, ?_, ?_⟩
        · rw [hkey, hkeys kv hkv]
          exact hnin
        · rw [hdata]
          exact hin
    · exact ((List.take_sublist _ _).map SearchHit.key).trans
        (((List.filter_sublist _).map SearchHit.key).trans (collectHits_keys_sublist _ kb))
    · exact ((List.take_sublist _ _).map SearchHit.key).trans
        (((List.filter_sublist _).map SearchHit.key).trans (collectHits_keys_sublist _ kb))

/-- Witness for C8: searching paris over a lower-case-keyed concrete
cache. -/
theorem searchLocal_tiers_witness :
    (searchLocalKnowledge ("paris") searchWitnessKB).length ≤ 5 :=
  (searchLocal_tiers ("paris") searchWitnessKB (by decide)).1

/-! ## Claim C9: save/load round trip of the knowledge document -/

theorem mk_toList (s : String) : String.mk s.toList = s := rfl

theorem parseStrBody_quote (rest : List Char) :
    parseStrBody (quoteChar :: rest) = some ([], rest) := by
  unfold parseStrBody
  simp

theorem parseStrBody_esc (e : Char) (he : e = quoteChar ∨ e = backslashChar)
    (r2 b r : List Char) (h : parseStrBody r2 = some (b, r)) :
    parseStrBody (backslashChar :: e :: r2) = some (e :: b, r) := by
  unfold parseStrBody
  rw [if_neg (by decide : ¬ backslashChar = quoteChar), if_pos rfl]
  have he2 : (decide (e = quoteChar) || decide (e = backslashChar)) = true := by
    rcases he with h1 | h1 <;> simp [h1]
  dsimp only
  rw [if_pos he2, h]

theorem parseStrBody_plain (c : Char) (h1 : ¬ c = quoteChar) (h2 : ¬ c = backslashChar)
    (r2 b r : List Char) (h : parseStrBody r2 = some (b, r)) :
    parseStrBody (c :: r2) = some (c :: b, r) := by
  unfold parseStrBody
  rw [if_neg h1, if_neg h2, h]

theorem parseStrBody_enc (cs : List Char) (rest : List Char) :
    parseStrBody (cs.flatMap escChar ++ quoteChar :: rest) = some (cs, rest) := by
  induction cs with
  | nil => simpa using parseStrBody_quote rest
  | cons c cs2 ih =>
    rw [List.flatMap_cons, List.append_assoc]
    by_cases h1 : c = quoteChar
    · subst h1
      rw [show escChar quoteChar = [backslashChar, quoteChar] from by simp [escChar]]
      exact parseStrBody_esc quoteChar (Or.inl rfl) _ _ _ ih
    · by_cases h2 : c = backslashChar
      · subst h2
        rw [show escChar backslashChar = [backslashChar, backslashChar] from by
          simp [escChar, backslashChar, quoteChar]]
        exact parseStrBody_esc backslashChar (Or.inr rfl) _ _ _ ih
      · rw [show escChar c = [c] from by simp [escChar, h1, h2]]
        exact parseStrBody_plain c h1 h2 _ _ _ ih

theorem parseStrL_enc (s : String) (rest : List Char) :
    parseStrL (encStrL s ++ rest) = some (s, rest) := by
  have h : encStrL s ++ rest = quoteChar :: (s.toList.flatMap escChar ++ quoteChar :: rest) := by
    simp [encStrL]
  rw [h]
  unfold parseStrL
  dsimp only
  rw [if_pos rfl, parseStrBody_enc]
  rfl

theorem natToDigits_ne_nil (n : Nat) : natToDigits n ≠ [] := by
  unfold natToDigits
  split <;> simp

theorem digit_char_isDigit (k : Nat) (h : k < 10) : (Char.ofNat (48 + k)).isDigit = true := by
  interval_cases k <;> decide

theorem digit_char_toNat (k : Nat) (h : k < 10) : (Char.ofNat (48 + k)).toNat = 48 + k := by
  interval_cases k <;> decide

theorem natToDigits_all_digits (n : Nat) : ∀ c ∈ natToDigits n, c.isDigit = true := by
  induction n using Nat.strong_induction_on with
  | _ n ih =>
    unfold natToDigits
    split
    · intro c hc
      simp only [List.mem_singleton] at hc
      subst hc
      exact digit_char_isDigit n (by omega)
    · intro c hc
      rw [List.mem_append] at hc
      rcases hc with hc | hc
      · exact ih (n / 10) (Nat.div_lt_self (by omega) (by omega)) c hc
      · simp only [List.mem_singleton] at hc
        subst hc
        exact digit_char_isDigit (n % 10) (Nat.mod_lt _ (by omega))

theorem digitsToNat_append_digit (l : List Char) (c : Char) :
    digitsToNat (l ++ [c]) = digitsToNat l * 10 + (c.toNat - 48) := by
  unfold digitsToNat
  rw [List.foldl_append]
  rfl

theorem digitsToNat_natToDigits (n : Nat) : digitsToNat (natToDigits n) = n := by
  induction n using Nat.strong_induction_on with
  | _ n ih =>
    rw [natToDigits]
    split
    · have h10 : n < 10 := by omega
      simp [digitsToNat, digit_char_toNat n h10]
    · rw [digitsToNat_append_digit,
        ih (n / 10) (Nat.div_lt_self (by omega) (by omega)),
        digit_char_toNat (n % 10) (Nat.mod_lt _ (by omega))]
      omega

theorem takeWhile_all_append (p : Char → Bool) (l : List Char) (c : Char) (r : List Char)
    (hl : ∀ x ∈ l, p x = true) (hc : p c = false) :
    (l ++ c :: r).takeWhile p = l ∧ (l ++ c :: r).dropWhile p = c :: r := by
  induction l with
  | nil =>
    simp [List.takeWhile_cons, List.dropWhile_cons, hc]
  | cons a l2 ih =>
    have ha : p a = true := hl a (List.mem_cons_self a l2)
    have ih2 := ih (fun x hx => hl x (List.mem_cons_of_mem a hx))
    simp [List.takeWhile_cons, List.dropWhile_cons, ha, ih2.1, ih2.2]

theorem isPrefixOfL_append_self (l r : List Char) : isPrefixOfL l (l ++ r) = true := by
  induction l with
  | nil => rfl
  | cons a l2 ih => simp [isPrefixOfL, ih]

theorem parseFValL_enc (v : FVal) (c : Char) (r : List Char) (hc : c.isDigit = false) :
    parseFValL (encFVal v ++ c :: r) = some (v, c :: r) := by
  cases v with
  | str s =>
    have h : encFVal (.str s) ++ c :: r =
        quoteChar :: (s.toList.flatMap escChar ++ quoteChar :: (c :: r)) := by
      simp [encFVal, encStrL]
    rw [h]
    unfold parseFValL
    dsimp only
    rw [if_pos rfl]
    have h2 : quoteChar :: (s.toList.flatMap escChar ++ quoteChar :: (c :: r)) =
        encStrL s ++ c :: r := by
      simp [encStrL]
    rw [h2, parseStrL_enc]
  | num n =>
    obtain ⟨d, ds, hnd⟩ : ∃ d ds, natToDigits n = d :: ds := by
      cases h : natToDigits n with
      | nil => exact absurd h (natToDigits_ne_nil n)
      | cons d ds => exact ⟨d, ds, rfl⟩
    have hdig : d.isDigit = true := by
      have := natToDigits_all_digits n d
      rw [hnd] at this
      exact this (List.mem_cons_self d ds)
    have htake := takeWhile_all_append Char.isDigit (natToDigits n) c r
      (natToDigits_all_digits n) hc
    have h : encFVal (.num n) ++ c :: r = d :: (ds ++ c :: r) := by
      simp [encFVal, hnd]
    rw [h]
    unfold parseFValL
    dsimp only
    rw [if_neg ?hq, if_pos hdig]
    case hq =>
      intro he
      rw [he] at hdig
      exact absurd hdig (by decide)
    have hl : d :: (ds ++ c :: r) = natToDigits n ++ c :: r := by simp [hnd]
    rw [hl, htake.1, htake.2, digitsToNat_natToDigits]
  | boolV b =>
    cases b with
    | true =>
      have h : encFVal (.boolV true) ++ c :: r =
          ('t') :: (('r') :: (('u') :: (('e') :: (c :: r)))) := rfl
      have hpre : isPrefixOfL (String.toList ("true"))
          (('t') :: (('r') :: (('u') :: (('e') :: (c :: r))))) = true :=
        isPrefixOfL_append_self (String.toList ("true")) (c :: r)
      rw [h]
      unfold parseFValL
      dsimp only
      rw [if_neg (by decide), if_neg (by decide), if_pos hpre]
      rfl
    | false =>
      have h : encFVal (.boolV false) ++ c :: r =
          ('f') :: (('a') :: (('l') :: (('s') :: (('e') :: (c :: r))))) := rfl
      have hpre : isPrefixOfL (String.toList ("false"))
          (('f') :: (('a') :: (('l') :: (('s') :: (('e') :: (c :: r)))))) = true :=
        isPrefixOfL_append_self (String.toList ("false")) (c :: r)
      rw [h]
      unfold parseFValL
      dsimp only
      rw [if_neg (by decide), if_neg (by decide), if_neg (by simp [isPrefixOfL]),
        if_pos hpre]
      rfl

theorem length_le_encFields (e : Entry) : e.length ≤ (encFields e).length := by
  induction e with
  | nil => simp [encFields]
  | cons kv rest ih =>
    cases rest with
    | nil =>
      simp only [encFields, List.length_cons, List.length_nil, List.length_append]
      omega
    | cons kv2 rs =>
      simp only [encFields, List.length_cons, List.length_append] at *
      omega

theorem parseFields_enc (e : Entry) :
    ∀ (rest : List Char) (fuel : Nat), e.length ≤ fuel → e ≠ [] →
    parseFields fuel (encFields e ++ rbraceChar :: rest) = some (e, rest) := by
  induction e with
  | nil => intro rest fuel _ hne; exact absurd rfl hne
  | cons kv e2 ih =>
    intro rest fuel hfuel _
    obtain ⟨f2, rfl⟩ : ∃ f2, fuel = f2 + 1 := by
      cases fuel with
      | zero => simp at hfuel
      | succ f2 => exact ⟨f2, rfl⟩
    cases e2 with
    | nil =>
      have h : encFields [kv] ++ rbraceChar :: rest =
          encStrL kv.1 ++ (colonChar :: (encFVal kv.2 ++ (rbraceChar :: rest))) := by
        simp [encFields]
      rw [h]
      unfold parseFields
      rw [parseStrL_enc]
      dsimp only
      rw [if_pos rfl, parseFValL_enc kv.2 rbraceChar rest (by decide)]
      dsimp only
      rw [if_neg (by decide : ¬ rbraceChar = commaChar), if_pos rfl]
    | cons kv2 rs =>
      have h : encFields (kv :: kv2 :: rs) ++ rbraceChar :: rest =
          encStrL kv.1 ++ (colonChar ::
            (encFVal kv.2 ++ (commaChar :: (encFields (kv2 :: rs) ++ rbraceChar :: rest)))) := by
        simp [encFields]
      rw [h]
      unfold parseFields
      rw [parseStrL_enc]
      dsimp only
      rw [if_pos rfl, parseFValL_enc kv.2 commaChar _ (by decide)]
      dsimp only
      rw [if_pos rfl, ih rest f2 (by simp at hfuel ⊢; omega) (by simp)]

theorem parseEntryL_enc (e : Entry) (rest : List Char) :
    parseEntryL (encEntry e ++ rest) = some (e, rest) := by
  cases e with
  | nil =>
    have h : encEntry [] ++ rest = lbraceChar :: (rbraceChar :: rest) := by
      simp [encEntry, encFields]
    rw [h]
    unfold parseEntryL
    dsimp only
    rw [if_pos rfl, if_pos rfl]
  | cons kv e2 =>
    have h : encEntry (kv :: e2) ++ rest =
        lbraceChar :: (encFields (kv :: e2) ++ rbraceChar :: rest) := by
      simp [encEntry]
    obtain ⟨tail, htail⟩ : ∃ tail, encFields (kv :: e2) = quoteChar :: tail := by
      cases e2 <;> simp [encFields, encStrL]
    rw [h, htail, List.cons_append]
    unfold parseEntryL
    dsimp only
    rw [if_pos rfl, if_neg (by decide : ¬ quoteChar = rbraceChar), ← List.cons_append, ← htail]
    have hfuel : (kv :: e2).length ≤ (encFields (kv :: e2) ++ rbraceChar :: rest).length := by
      have h1 := length_le_encFields (kv :: e2)
      simp only [List.length_append, List.length_cons] at *
      omega
    exact parseFields_enc (kv :: e2) rest _ hfuel (by simp)

theorem length_le_encKBFields (kb : KB) : kb.length ≤ (encKBFields kb).length := by
  induction kb with
  | nil => simp [encKBFields]
  | cons kv rest ih =>
    cases rest with
    | nil =>
      simp only [encKBFields, List.length_cons, List.length_nil, List.length_append]
      omega
    | cons kv2 rs =>
      simp only [encKBFields, List.length_cons, List.length_append] at *
      omega

theorem parseKBFields_enc (kb : KB) :
    ∀ (rest : List Char) (fuel : Nat), kb.length ≤ fuel → kb ≠ [] →
    parseKBFields fuel (encKBFields kb ++ rbraceChar :: rest) = some (kb, rest) := by
  induction kb with
  | nil => intro rest fuel _ hne; exact absurd rfl hne
  | cons kv e2 ih =>
    intro rest fuel hfuel _
    obtain ⟨f2, rfl⟩ : ∃ f2, fuel = f2 + 1 := by
      cases fuel with
      | zero => simp at hfuel
      | succ f2 => exact ⟨f2, rfl⟩
    cases e2 with
    | nil =>
      have h : encKBFields [kv] ++ rbraceChar :: rest =
          encStrL kv.1 ++ (colonChar :: (encEntry kv.2 ++ (rbraceChar :: rest))) := by
        simp [encKBFields]
      rw [h]
      unfold parseKBFields
      rw [parseStrL_enc]
      dsimp only
      rw [if_pos rfl, parseEntryL_enc kv.2 (rbraceChar :: rest)]
      dsimp only
      rw [if_neg (by decide : ¬ rbraceChar = commaChar), if_pos rfl]
    | cons kv2 rs =>
      have h : encKBFields (kv :: kv2 :: rs) ++ rbraceChar :: rest =
          encStrL kv.1 ++ (colonChar ::
            (encEntry kv.2 ++ (commaChar :: (encKBFields (kv2 :: rs) ++ rbraceChar :: rest)))) := by
        simp [encKBFields]
      rw [h]
      unfold parseKBFields
      rw [parseStrL_enc]
      dsimp only
      rw [if_pos rfl, parseEntryL_enc kv.2 (commaChar :: (encKBFields (kv2 :: rs) ++ rbraceChar :: rest))]
      dsimp only
      rw [if_pos rfl, ih rest f2 (by simp at hfuel ⊢; omega) (by simp)]

theorem parseKBL_enc (kb : KB) (rest : List Char) :
    parseKBL (encKB kb ++ rest) = some (kb, rest) := by
  cases kb with
  | nil =>
    have h : encKB [] ++ rest = lbraceChar :: (rbraceChar :: rest) := by
      simp [encKB, encKBFields]
    rw [h]
    unfold parseKBL
    dsimp only
    rw [if_pos rfl, if_pos rfl]
  | cons kv e2 =>
    have h : encKB (kv :: e2) ++ rest =
        lbraceChar :: (encKBFields (kv :: e2) ++ rbraceChar :: rest) := by
      simp [encKB]
    obtain ⟨tail, htail⟩ : ∃ tail, encKBFields (kv :: e2) = quoteChar :: tail := by
      cases e2 <;> simp [encKBFields, encStrL]
    rw [h, htail, List.cons_append]
    unfold parseKBL
    dsimp only
    rw [if_pos rfl, if_neg (by decide : ¬ quoteChar = rbraceChar), ← List.cons_append, ← htail]
    have hfuel : (kv :: e2).length ≤ (encKBFields (kv :: e2) ++ rbraceChar :: rest).length := by
      have h1 := length_le_encKBFields (kv :: e2)
      simp only [List.length_append, List.length_cons] at *
      omega
    exact parseKBFields_enc (kv :: e2) rest _ hfuel (by simp)

/-- C9: persisting the knowledge document and reloading it restores the
identical key-to-record mapping (save/load round-trip law). -/
theorem knowledge_roundtrip (kb : KB) :
    loadKnowledgeBase (saveKnowledgeBase kb) = kb := by
  unfold loadKnowledgeBase saveKnowledgeBase
  have h : (String.mk (encKB kb)).toList = encKB kb ++ [] := by simp
  rw [h, parseKBL_enc]

/-! ## Claim C10: the access counter is frozen at one -/

theorem accessCountOk_insert (kb : KB) (k : String) (e : Entry)
    (he : dictGet? ("access_count") e = some (.num 1) ∨ dictGet? ("access_count") e = none)
    (h : accessCountOk kb) : accessCountOk (dictInsert k e kb) := by
  intro kv hkv
  rcases mem_dictInsert kv k e kb hkv with heq | hm
  · rw [heq]
    exact he
  · exact h kv hm

theorem searchAndLearn_state (now : String) (net : String → WikiNet) (q : String)
    (st : AIState) :
    (searchAndLearn now net q st).2.1 = st ∨
    ∃ d, (searchAndLearn now net q st).2.1 = storeKnowledge now q d ("wikipedia") st := by
  unfold searchAndLearn searchAndLearnMiss
  cases searchKnowledgeBase q st.knowledgeBase with
  | none =>
    cases searchWikipedia now net st.cfg q with
    | success d => exact Or.inr ⟨d, rfl⟩
    | notFound => exact Or.inl rfl
    | disabled => exact Or.inl rfl
    | error m => exact Or.inl rfl
  | some e =>
    by_cases he : e.isEmpty = true
    · simp only [he, if_true]
      cases searchWikipedia now net st.cfg q with
      | success d => exact Or.inr ⟨d, rfl⟩
      | notFound => exact Or.inl rfl
      | disabled => exact Or.inl rfl
      | error m => exact Or.inl rfl
    · simp only [he, if_false]
      cases summarySlice200 e with
      | some s => exact Or.inl rfl
      | none => exact Or.inl rfl

theorem getWeatherInfo_state (now : String) (net : String → WeatherNet) (city : String)
    (st : AIState) :
    (getWeatherInfo now net city st).2 = st ∨
    ∃ info, (getWeatherInfo now net city st).2 =
      storeKnowledge now ("weather_" ++ pyLower city) info ("openweather") st := by
  unfold getWeatherInfo
  split
  · exact Or.inl rfl
  · cases net city with
    | ok name temp desc hum => exact Or.inr ⟨_, rfl⟩
    | notOk => exact Or.inl rfl
    | exn m => exact Or.inl rfl

theorem applyAIOp_accessCount (o : Oracles) (st : AIState) (op : AIOp)
    (h : accessCountOk st.knowledgeBase) : accessCountOk (applyAIOp o st op).knowledgeBase := by
  cases op with
  | storeOp now q d src =>
    exact accessCountOk_insert _ _ _ (Or.inl (mkStoreRecord_accessCount now d src)) h
  | lookupOp now q =>
    show accessCountOk ((searchAndLearn now o.wiki q st).2.1).knowledgeBase
    rcases searchAndLearn_state now o.wiki q st with heq | ⟨d, heq⟩
    · rw [heq]; exact h
    · rw [heq]
      exact accessCountOk_insert _ _ _ (Or.inl (mkStoreRecord_accessCount now d ("wikipedia"))) h
  | convOp now u r =>
    show accessCountOk (learnFromConversation now o.pyHash u r st).knowledgeBase
    refine accessCountOk_insert _ _ _ (Or.inr ?_) h
    simp [dictGet?]
  | weatherOp now city =>
    show accessCountOk ((getWeatherInfo now o.weather city st).2).knowledgeBase
    rcases getWeatherInfo_state now o.weather city st with heq | ⟨info, heq⟩
    · rw [heq]; exact h
    · rw [heq]
      exact accessCountOk_insert _ _ _
        (Or.inl (mkStoreRecord_accessCount now info ("openweather"))) h

/-- C10: the stored access counter never moves.  A direct store writes the
counter at one; starting from any cache whose records satisfy the
counter-is-one-or-absent invariant, every reachable operation sequence
(stores, lookup-or-learn calls, conversation memory writes, weather
lookups) preserves it; and a lookup hit returns without modifying the
learning state at all, so no read ever increments the counter. -/
theorem accessCount_invariant (o : Oracles) (st : AIState) (ops : List AIOp)
    (h : accessCountOk st.knowledgeBase) :
    accessCountOk (applyAIOps o st ops).knowledgeBase
    ∧ (∀ now data src, dictGet? ("access_count") (mkStoreRecord now data src) = some (.num 1))
    ∧ (∀ now q e, searchKnowledgeBase q st.knowledgeBase = some e → e.isEmpty = false →
        (searchAndLearn now o.wiki q st).2.1 = st) := by
  refine ⟨?_, fun now data src => mkStoreRecord_accessCount now data src, ?_⟩
  · induction ops generalizing st with
    | nil => exact h
    | cons op ops2 ih =>
      exact ih (applyAIOp o st op) (applyAIOp_accessCount o st op h)
  · intro now q e hq he
    unfold searchAndLearn
    rw [hq]
    simp only [he, if_false]
    cases summarySlice200 e with
    | some s => rfl
    | none => rfl

/-- Witness for C10: a store followed by a hit lookup and a conversation
write on a fresh learning system. -/
theorem accessCount_invariant_witness :
    accessCountOk (applyAIOps trivialOracles AIState.init
      [AIOp.storeOp ("t1") ("q") [] ("wikipedia"), AIOp.lookupOp ("t2") ("q"),
       AIOp.convOp ("t3") ("u") ("r")]).knowledgeBase :=
  (accessCount_invariant trivialOracles AIState.init
    [AIOp.storeOp ("t1") ("q") [] ("wikipedia"), AIOp.lookupOp ("t2") ("q"),
     AIOp.convOp ("t3") ("u") ("r")] (by intro kv hkv; simp [AIState.init] at hkv)).1
